import Mathlib

/-!
# Verification of the Nowforever D100/E100 VFD HAL driver control loop

Shallow embedding of the control loop of `nowforever_vfd.c` (current
revision, namespace `Vfd`) and of the earlier revision of the same file
(namespace `Rev0`).

Modelling conventions:
* C `double`/`float` (`hal_float_t`) values are modelled as exact rationals.
* C machine integers are modelled as `Nat`/`Int`; where the C code stores
  into a `uint16_t` the value is reduced `% 65536` explicitly.
* A C cast `(int)x` of a floating value truncates toward zero; it is
  modelled by `ratTrunc`.
* The comparison `fabs(1 - a / b) < tol` at `b = 0` is embedded as
  `false`: in IEEE-754 arithmetic the division yields an infinity or NaN,
  and the resulting comparison is false for every value of `tol`.
* Modbus transactions are modelled by oracles: a read oracle
  `Nat -> Option Regs` gives, for each attempt, either failure (`none`)
  or the eight 16-bit registers received; a write oracle `Nat -> Bool`
  tells whether each write attempt succeeds.  The loop body of `main`
  (period clamp, register read, register writes, status synthesis) is the
  function `Vfd.tick`.
-/

/-- Truncation of a rational toward zero, the semantics of the C cast
`(int)x` applied to a floating value. -/
def ratTrunc (q : ℚ) : ℤ :=
  if 0 ≤ q then ⌊q⌋ else ⌈q⌉

/-- One block of the eight 16-bit registers returned by
`modbus_read_registers` (register values, hence below 65536; the bound is
not needed by the theorems and is not imposed). -/
def Regs := Fin 8 → ℕ

/-- The comparison `fabs(1 - freq_cmd / output_freq) < speed_tolerance`
appearing in `write_data` of both revisions.  At `output_freq = 0` the C
division yields an infinity or NaN and the comparison evaluates to false
for every tolerance (IEEE-754); that case is embedded explicitly as
`false`. -/
def atSpeedCompare (freq_cmd output_freq tol : ℚ) : Bool :=
  if output_freq = 0 then false
  else decide (|1 - freq_cmd / output_freq| < tol)

namespace Vfd

/-- NUM_MODBUS_RETRIES of `nowforever_vfd.c`: retry count beyond the
first attempt of a modbus transaction. -/
def NUM_MODBUS_RETRIES : ℕ := 5

/-- The `struct haldata` pin/parameter block of `nowforever_vfd.c`.
`hal_bit_t` pins are modelled as `Bool`, `hal_float_t` as `ℚ`,
`hal_s32_t` as `ℤ`; `inverter_status` is only ever assigned register
values, so it is carried as `ℕ`. -/
structure Haldata where
  inverter_status : ℕ
  freq_cmd : ℚ
  output_freq : ℚ
  output_current : ℚ
  output_volt : ℚ
  dc_bus_volt : ℤ
  motor_load : ℚ
  inverter_temp : ℤ
  vfd_error : Bool
  at_speed : Bool
  is_stopped : Bool
  speed_fb : ℚ
  spindle_on : Bool
  spindle_fwd : Bool
  spindle_rev : Bool
  speed_cmd : ℚ
  speed_tolerance : ℚ
  period : ℚ
  modbus_errors : ℤ
  deriving DecidableEq

/-- The eight assignments performed by `read_data` on a successful
`modbus_read_registers` transaction (scaling factors 0.01 for the two
frequencies, 0.1 for current, voltage and load). -/
def applySnapshot (d : Regs) (h : Haldata) : Haldata :=
  { h with
    inverter_status := d 0
    freq_cmd := (d 1 : ℚ) * (1 / 100)
    output_freq := (d 2 : ℚ) * (1 / 100)
    output_current := (d 3 : ℚ) * (1 / 10)
    output_volt := (d 4 : ℚ) * (1 / 10)
    dc_bus_volt := (d 5 : ℤ)
    motor_load := (d 6 : ℚ) * (1 / 10)
    inverter_temp := (d 7 : ℤ) }

/-- Number of failed attempts consumed by the `read_data` retry loop
starting at attempt `i` with `fuel` iterations left: the attempts before
the first successful one (all of them if none succeeds). -/
def readFailCount (o : ℕ → Option Regs) (i fuel : ℕ) : ℕ :=
  match fuel with
  | 0 => 0
  | Nat.succ f =>
    match o i with
    | some _ => 0
    | none => readFailCount o (i + 1) f + 1

/-- The retry loop of `read_data`: attempt `i`, with `fuel` loop
iterations remaining.  Each failed attempt increments `modbus_errors`;
the first success stores the snapshot and returns 0; when the fuel is
exhausted the function returns -1. -/
def readLoop (o : ℕ → Option Regs) (i fuel : ℕ) (h : Haldata) : ℤ × Haldata :=
  match fuel with
  | 0 => (-1, h)
  | Nat.succ f =>
    match o i with
    | some d => (0, applySnapshot d h)
    | none => readLoop o (i + 1) f { h with modbus_errors := h.modbus_errors + 1 }

/-- The function `read_data` of `nowforever_vfd.c`: up to
`NUM_MODBUS_RETRIES + 1` attempts of the 8-register read. -/
def read_data (o : ℕ → Option Regs) (h : Haldata) : ℤ × Haldata :=
  readLoop o 0 (NUM_MODBUS_RETRIES + 1) h

/-- Number of failed attempts consumed by a register-write retry loop
starting at attempt `i` with `fuel` iterations left. -/
def writeFailCount (w : ℕ → Bool) (i fuel : ℕ) : ℕ :=
  match fuel with
  | 0 => 0
  | Nat.succ f =>
    if w i then 0 else writeFailCount w (i + 1) f + 1

/-- The register-write retry loop shared (textually duplicated in the C)
by `set_vfd_state` and `set_vfd_freq`.  Writing to the device does not
change the HAL block, so a successful attempt returns the state
unchanged; each failed attempt increments `modbus_errors`. -/
def writeLoop (w : ℕ → Bool) (i fuel : ℕ) (h : Haldata) : ℤ × Haldata :=
  match fuel with
  | 0 => (-1, h)
  | Nat.succ f =>
    if w i then (0, h)
    else writeLoop w (i + 1) f { h with modbus_errors := h.modbus_errors + 1 }

/-- The decision chain of `set_vfd_state`: the value written to the
VFD_INSTRUCTION register (`some` state), or `none` when the chain falls
through to `return 0` without writing.  VFD_CW = 1, VFD_CCW = 3,
VFD_STOP = 0. -/
def vfdStateTarget (spindle_on spindle_fwd spindle_rev : Bool)
    (inverter_status : ℕ) : Option ℕ :=
  if spindle_on = true ∧ spindle_fwd = true ∧ inverter_status &&& 3 ≠ 1 then some 1
  else if spindle_on = true ∧ spindle_rev = true ∧ inverter_status &&& 3 ≠ 3 then some 3
  else if spindle_on = false ∧ inverter_status &&& 1 ≠ 0 then some 0
  else none

/-- The function `set_vfd_state` of `nowforever_vfd.c`: evaluate the
decision chain; on `none` return 0 without touching the bus, otherwise
run the write retry loop. -/
def set_vfd_state (w : ℕ → Bool) (h : Haldata) : ℤ × Haldata :=
  match vfdStateTarget h.spindle_on h.spindle_fwd h.spindle_rev h.inverter_status with
  | some _ => writeLoop w 0 (NUM_MODBUS_RETRIES + 1) h
  | none => (0, h)

/-- The frequency-register value computed by `set_vfd_freq`:
`freq = abs((int)(speed_cmd * freq_calc * 100))` stored into a
`uint16_t` (hence the `% 65536`), then capped at `max_freq * 100`.  The
C cast `(uint16_t)(max_freq * 100)` is undefined for
`max_freq * 100` outside `[0, 65536)`; it is modelled as truncation
reduced `% 65536`. -/
def freqRegister (speed_cmd freq_calc max_freq : ℚ) : ℕ :=
  let freq0 : ℕ := (ratTrunc (speed_cmd * freq_calc * 100)).natAbs % 65536
  if (freq0 : ℚ) > max_freq * 100 then (ratTrunc (max_freq * 100)).toNat % 65536
  else freq0

/-- The function `set_vfd_freq` of `nowforever_vfd.c`: compute the
register value; skip the bus entirely when it equals
`(int)(output_freq * 100)`, otherwise run the write retry loop. -/
def set_vfd_freq (w : ℕ → Bool) (h : Haldata) (freq_calc max_freq : ℚ) : ℤ × Haldata :=
  let freq := freqRegister h.speed_cmd freq_calc max_freq
  if (freq : ℤ) = ratTrunc (h.output_freq * 100) then (0, h)
  else writeLoop w 0 (NUM_MODBUS_RETRIES + 1) h

/-- The function `write_data` of `nowforever_vfd.c`: state write, then
frequency write (their return values are discarded), then the status
pins.  The C computes `at_speed` from the tolerance comparison and then
forces it to 0 when `spindle_on == 0`; the two steps are folded into one
conditional.  `vfd_error` is only ever set, never cleared. -/
def write_data (ws wf : ℕ → Bool) (h : Haldata) (hzcalc max_freq : ℚ) : Haldata :=
  let h2 := (set_vfd_freq wf (set_vfd_state ws h).2 hzcalc max_freq).2
  { h2 with
    is_stopped := if h2.output_freq = 0 then true else false
    speed_fb := h2.output_freq / hzcalc
    at_speed := if h2.spindle_on = false then false
                else atSpeedCompare h2.freq_cmd h2.output_freq h2.speed_tolerance
    vfd_error := if h2.inverter_status &&& 24 ≠ 0 then true else h2.vfd_error }

/-- The period clamp at the top of the main loop:
`if (period < 0.001) period = 0.001; if (period > 2.0) period = 2.0;`. -/
def clampPeriod (h : Haldata) : Haldata :=
  let p1 : ℚ := if h.period < 1 / 1000 then 1 / 1000 else h.period
  { h with period := if p1 > 2 then 2 else p1 }

/-- One iteration of the main loop of `nowforever_vfd.c` (without the
sleep): clamp the period, `read_data` (return value ignored), then
`write_data`. -/
def tick (ro : ℕ → Option Regs) (ws wf : ℕ → Bool) (h : Haldata)
    (hzcalc max_freq : ℚ) : Haldata :=
  write_data ws wf (read_data ro (clampPeriod h)).2 hzcalc max_freq

/-- The oracles consumed by one tick: read attempts, state-write
attempts, frequency-write attempts. -/
def Oracles := (ℕ → Option Regs) × (ℕ → Bool) × (ℕ → Bool)

/-- A sequence of ticks, one oracle triple per tick. -/
def ticksRun (l : List Oracles) (h : Haldata) (hzcalc max_freq : ℚ) : Haldata :=
  l.foldl (fun s o => tick o.1 o.2.1 o.2.2 s hzcalc max_freq) h

/-- The pin/parameter block as initialised by `main` before the loop
(`speed_tolerance = 0.01`, `period = 0.1`, everything else zeroed). -/
def sample : Haldata :=
  { inverter_status := 0
    freq_cmd := 0
    output_freq := 0
    output_current := 0
    output_volt := 0
    dc_bus_volt := 0
    motor_load := 0
    inverter_temp := 0
    vfd_error := false
    at_speed := false
    is_stopped := false
    speed_fb := 0
    spindle_on := false
    spindle_fwd := false
    spindle_rev := false
    speed_cmd := 0
    speed_tolerance := 1 / 100
    period := 1 / 10
    modbus_errors := 0 }

/-- The snapshot part of the HAL block: the eight pins published by a
successful register read. -/
def snapshot (h : Haldata) : ℕ × ℚ × ℚ × ℚ × ℚ × ℤ × ℚ × ℤ :=
  (h.inverter_status, h.freq_cmd, h.output_freq, h.output_current,
   h.output_volt, h.dc_bus_volt, h.motor_load, h.inverter_temp)

/-- The snapshot pins as decoded from one received register block. -/
def decodeSnapshot (d : Regs) : ℕ × ℚ × ℚ × ℚ × ℚ × ℤ × ℚ × ℤ :=
  (d 0, (d 1 : ℚ) * (1 / 100), (d 2 : ℚ) * (1 / 100), (d 3 : ℚ) * (1 / 10),
   (d 4 : ℚ) * (1 / 10), (d 5 : ℤ), (d 6 : ℚ) * (1 / 10), (d 7 : ℤ))

/-- Number of failed attempts of the state write in one call of
`set_vfd_state`: zero when the decision chain fires no rule. -/
def stateFailCount (w : ℕ → Bool) (spindle_on spindle_fwd spindle_rev : Bool)
    (inverter_status : ℕ) : ℕ :=
  match vfdStateTarget spindle_on spindle_fwd spindle_rev inverter_status with
  | some _ => writeFailCount w 0 (NUM_MODBUS_RETRIES + 1)
  | none => 0

/-- Number of failed attempts of the frequency write in one call of
`set_vfd_freq`: zero when the write is skipped. -/
def freqFailCount (w : ℕ → Bool) (speed_cmd output_freq freq_calc max_freq : ℚ) : ℕ :=
  if (freqRegister speed_cmd freq_calc max_freq : ℤ) = ratTrunc (output_freq * 100) then 0
  else writeFailCount w 0 (NUM_MODBUS_RETRIES + 1)

/-- Number of failed modbus attempts in one tick: the read attempts
before the first success (or all six), plus the attempts of each of the
two writes that is actually issued. -/
def tickFailCount (ro : ℕ → Option Regs) (ws wf : ℕ → Bool) (h : Haldata)
    (hzcalc max_freq : ℚ) : ℕ :=
  let h1 := (read_data ro (clampPeriod h)).2
  readFailCount ro 0 (NUM_MODBUS_RETRIES + 1) +
    stateFailCount ws h1.spindle_on h1.spindle_fwd h1.spindle_rev h1.inverter_status +
    freqFailCount wf h1.speed_cmd h1.output_freq hzcalc max_freq

end Vfd

namespace Rev0

/-- The `haldata_t` block of the earlier revision of `nowforever_vfd.c`
(the unnamed source file): same pins plus `output_rpm` (in place of
`speed_fb`), the command pin `rpm_cmd` (in place of `speed_cmd`) and the
extra parameter `retval`. -/
structure Haldata where
  inverter_status : ℕ
  freq_cmd : ℚ
  output_freq : ℚ
  output_current : ℚ
  output_volt : ℚ
  dc_bus_volt : ℤ
  motor_load : ℚ
  inverter_temp : ℤ
  vfd_error : Bool
  at_speed : Bool
  is_stopped : Bool
  output_rpm : ℚ
  spindle_on : Bool
  spindle_fwd : Bool
  spindle_rev : Bool
  rpm_cmd : ℚ
  speed_tolerance : ℚ
  period : ℚ
  modbus_errors : ℤ
  retval : ℤ
  deriving DecidableEq

/-- The function `read_data` of the earlier revision: it issues a single
`modbus_read_registers` transaction — the retry loop of the later
revision is absent here.  On success it stores `retval = 0` and the
eight registers; on failure it stores the (negative) library return
value in `retval` — modelled as -1 — increments `modbus_errors` once and
returns -1.  The null-pointer checks at the top concern C pointers and
are not represented. -/
def read_data (o : ℕ → Option Regs) (h : Haldata) : ℤ × Haldata :=
  match o 0 with
  | some d =>
    (0, { h with
      retval := 0
      inverter_status := d 0
      freq_cmd := (d 1 : ℚ) * (1 / 100)
      output_freq := (d 2 : ℚ) * (1 / 100)
      output_current := (d 3 : ℚ) * (1 / 10)
      output_volt := (d 4 : ℚ) * (1 / 10)
      dc_bus_volt := (d 5 : ℤ)
      motor_load := (d 6 : ℚ) * (1 / 10)
      inverter_temp := (d 7 : ℤ) })
  | none => (-1, { h with retval := -1, modbus_errors := h.modbus_errors + 1 })

/-- The register-write retry loop of the earlier revision (used by
`set_motor` and `set_motor_frequency`), same shape as in the later
revision. -/
def writeLoop (w : ℕ → Bool) (i fuel : ℕ) (h : Haldata) : ℤ × Haldata :=
  match fuel with
  | 0 => (-1, h)
  | Nat.succ f =>
    if w i then (0, h)
    else writeLoop w (i + 1) f { h with modbus_errors := h.modbus_errors + 1 }

/-- The decision chain of `set_motor` of the earlier revision.  The
reverse branch tests `spindle_on != spindle_fwd` (not `spindle_rev`);
the pin `spindle_rev` is never read by this function. -/
def setMotorTarget (spindle_on spindle_fwd : Bool) (inverter_status : ℕ) : Option ℕ :=
  if spindle_on = true ∧ spindle_fwd = true ∧ inverter_status &&& 3 ≠ 1 then some 1
  else if spindle_on ≠ spindle_fwd ∧ inverter_status &&& 3 ≠ 3 then some 3
  else if spindle_on = false ∧ inverter_status &&& 1 ≠ 0 then some 0
  else none

/-- The function `set_motor` of the earlier revision. -/
def set_motor (w : ℕ → Bool) (h : Haldata) : ℤ × Haldata :=
  match setMotorTarget h.spindle_on h.spindle_fwd h.inverter_status with
  | some _ => writeLoop w 0 6 h
  | none => (0, h)

/-- The function `set_motor_frequency` of the earlier revision:
`val = freq * 100` stored into a `uint16_t` (truncation, modelled
`% 65536`), capped at `MAX_FREQ * 100 = 40000`, then the write retry
loop.  The value `val` goes only to the bus, not to the HAL block. -/
def set_motor_frequency (w : ℕ → Bool) (h : Haldata) (freq : ℚ) : ℤ × Haldata :=
  let val0 : ℕ := (ratTrunc (freq * 100)).toNat % 65536
  let _val : ℕ := if val0 > 40000 then 40000 else val0
  writeLoop w 0 6 h

/-- The function `write_data` of the earlier revision: `set_motor`, then
the in-place rewrite `rpm_cmd = fabsf(rpm_cmd)` when `rpm_cmd < 0`, the
frequency computation `freq = (int)(((rpm_cmd / MAX_RPM) * MAX_FREQ) * 100)`
with `MAX_RPM = 24000`, `MAX_FREQ = 400`, published as
`freq_cmd = freq / 100`, the conditional frequency write (issued when
`freq_cmd != output_freq`, with the uncapped `freq_cmd` as argument),
and the status pins.  `output_rpm = output_freq * (MAX_RPM / MAX_FREQ)`
uses the exact integer quotient 60. -/
def write_data (ws wf : ℕ → Bool) (h : Haldata) : Haldata :=
  let h1 := (set_motor ws h).2
  let h2 := if h1.rpm_cmd < 0 then { h1 with rpm_cmd := |h1.rpm_cmd| } else h1
  let freq : ℤ := ratTrunc (h2.rpm_cmd / 24000 * 400 * 100)
  let h3 := { h2 with freq_cmd := (freq : ℚ) / 100 }
  let h4 := if h3.freq_cmd ≠ h3.output_freq then (set_motor_frequency wf h3 h3.freq_cmd).2 else h3
  { h4 with
    is_stopped := if h4.output_freq = 0 then true else false
    output_rpm := h4.output_freq * 60
    at_speed := if h4.spindle_on = false then false
                else atSpeedCompare h4.freq_cmd h4.output_freq h4.speed_tolerance
    vfd_error := if h4.inverter_status &&& 24 ≠ 0 then true else h4.vfd_error }

/-- The pin/parameter block as initialised by `main` of the earlier
revision before its loop. -/
def sample : Haldata :=
  { inverter_status := 0
    freq_cmd := 0
    output_freq := 0
    output_current := 0
    output_volt := 0
    dc_bus_volt := 0
    motor_load := 0
    inverter_temp := 0
    vfd_error := false
    at_speed := false
    is_stopped := false
    output_rpm := 0
    spindle_on := false
    spindle_fwd := false
    spindle_rev := false
    rpm_cmd := 0
    speed_tolerance := 1 / 100
    period := 1 / 10
    modbus_errors := 0
    retval := 0 }

end Rev0

/-- Modelled from the spec: the Frequency Controller formula
`clamp(|requested_speed| * scale, 0, max_frequency)`, multiplied by 100
and rounded toward zero, where `scale = max_frequency / max_reference_speed`
is passed already divided (compared against `Vfd.freqRegister`, the value
the code computes). -/
def specFreqRegister (requested_speed scale max_frequency : ℚ) : ℤ :=
  ratTrunc (max 0 (min (|requested_speed| * scale) max_frequency) * 100)

/-- Modelled from the spec: the Command-derived target state of the
Drive State Machine transition rules — RUNNING_FORWARD (1) when enabled
and forward, RUNNING_REVERSE (3) when enabled and reverse, STOPPED (0)
when not enabled (the rules give no target for an enabled command with
no direction; this function returns 0 there, a case no theorem uses). -/
def specCommandTarget (enabled forward reverse : Bool) : ℕ :=
  if enabled && forward then 1
  else if enabled && reverse then 3
  else 0

/-- A transaction oracle whose first attempt fails and whose every later
attempt succeeds, returning all-zero registers. -/
def oFailThenOk : ℕ → Option Regs :=
  fun i => if i = 0 then none else some (fun _ => 0)

/-- The initial block of the earlier revision with the command pin
`speed-command` set to -5000 RPM by the external controller. -/
def negCmdSample : Rev0.Haldata :=
  { Rev0.sample with rpm_cmd := -5000 }

namespace Vfd

theorem writeFailCount_le (w : ℕ → Bool) :
    ∀ (fuel i : ℕ), writeFailCount w i fuel ≤ fuel := by
  intro fuel
  induction fuel with
  | zero => intro i; simp [writeFailCount]
  | succ f ih =>
    intro i
    by_cases hw : w i
    · simp [writeFailCount, hw]
    · simpa [writeFailCount, hw] using ih (i + 1)

theorem writeLoop_snd (w : ℕ → Bool) :
    ∀ (fuel i : ℕ) (h : Haldata),
      (writeLoop w i fuel h).2 =
        { h with modbus_errors := h.modbus_errors + (writeFailCount w i fuel : ℤ) } := by
  intro fuel
  induction fuel with
  | zero => intro i h; simp [writeLoop, writeFailCount]
  | succ f ih =>
    intro i h
    by_cases hw : w i
    · simp [writeLoop, writeFailCount, hw]
    · rw [show writeLoop w i (f + 1) h =
          writeLoop w (i + 1) f { h with modbus_errors := h.modbus_errors + 1 } by
            simp [writeLoop, hw], ih]
      simp [writeFailCount, hw]
      ring

theorem writeLoop_fst (w : ℕ → Bool) :
    ∀ (fuel i : ℕ) (h : Haldata),
      ((writeLoop w i fuel h).1 = -1 ↔ ∀ j < fuel, w (i + j) = false) := by
  intro fuel
  induction fuel with
  | zero => intro i h; simp [writeLoop]
  | succ f ih =>
    intro i h
    by_cases hw : w i
    · simp only [writeLoop, hw, if_true]
      constructor
      · intro hc; exact absurd hc (by norm_num)
      · intro hall
        have := hall 0 (Nat.succ_pos f)
        simp [hw] at this
    · rw [show writeLoop w i (f + 1) h =
          writeLoop w (i + 1) f { h with modbus_errors := h.modbus_errors + 1 } by
            simp [writeLoop, hw]]
      rw [ih (i + 1)]
      constructor
      · intro hall j hj
        match j, hj with
        | 0, _ => simpa using hw
        | Nat.succ k, hk =>
          have := hall k (Nat.lt_of_succ_lt_succ hk)
          simpa [Nat.add_comm, Nat.add_left_comm, Nat.add_assoc] using this
      · intro hall j hj
        have := hall (j + 1) (Nat.succ_lt_succ hj)
        simpa [Nat.add_comm, Nat.add_left_comm, Nat.add_assoc] using this

theorem readFailCount_le (o : ℕ → Option Regs) :
    ∀ (fuel i : ℕ), readFailCount o i fuel ≤ fuel := by
  intro fuel
  induction fuel with
  | zero => intro i; simp [readFailCount]
  | succ f ih =>
    intro i
    cases ho : o i with
    | some d => simp [readFailCount, ho]
    | none => simpa [readFailCount, ho] using ih (i + 1)

theorem readLoop_errors (o : ℕ → Option Regs) :
    ∀ (fuel i : ℕ) (h : Haldata),
      (readLoop o i fuel h).2.modbus_errors =
        h.modbus_errors + (readFailCount o i fuel : ℤ) := by
  intro fuel
  induction fuel with
  | zero => intro i h; simp [readLoop, readFailCount]
  | succ f ih =>
    intro i h
    cases ho : o i with
    | some d => simp [readLoop, readFailCount, ho, applySnapshot]
    | none =>
      rw [show readLoop o i (f + 1) h =
          readLoop o (i + 1) f { h with modbus_errors := h.modbus_errors + 1 } by
            simp [readLoop, ho], ih]
      simp [readFailCount, ho]
      ring

theorem readLoop_fst (o : ℕ → Option Regs) :
    ∀ (fuel i : ℕ) (h : Haldata),
      ((readLoop o i fuel h).1 = -1 ↔ ∀ j < fuel, o (i + j) = none) := by
  intro fuel
  induction fuel with
  | zero => intro i h; simp [readLoop]
  | succ f ih =>
    intro i h
    cases ho : o i with
    | some d =>
      simp only [readLoop, ho]
      constructor
      · intro hc; exact absurd hc (by norm_num)
      · intro hall
        have := hall 0 (Nat.succ_pos f)
        simp [ho] at this
    | none =>
      rw [show readLoop o i (f + 1) h =
          readLoop o (i + 1) f { h with modbus_errors := h.modbus_errors + 1 } by
            simp [readLoop, ho]]
      rw [ih (i + 1)]
      constructor
      · intro hall j hj
        match j, hj with
        | 0, _ => simpa using ho
        | Nat.succ k, hk =>
          have := hall k (Nat.lt_of_succ_lt_succ hk)
          simpa [Nat.add_comm, Nat.add_left_comm, Nat.add_assoc] using this
      · intro hall j hj
        have := hall (j + 1) (Nat.succ_lt_succ hj)
        simpa [Nat.add_comm, Nat.add_left_comm, Nat.add_assoc] using this

theorem readLoop_fail_snd (o : ℕ → Option Regs) :
    ∀ (fuel i : ℕ) (h : Haldata),
      (readLoop o i fuel h).1 = -1 →
      (readLoop o i fuel h).2 =
        { h with modbus_errors := h.modbus_errors + (fuel : ℤ) } := by
  intro fuel
  induction fuel with
  | zero => intro i h _; simp [readLoop]
  | succ f ih =>
    intro i h hres
    cases ho : o i with
    | some d => simp [readLoop, ho] at hres
    | none =>
      have hstep : readLoop o i (f + 1) h =
          readLoop o (i + 1) f { h with modbus_errors := h.modbus_errors + 1 } := by
        simp [readLoop, ho]
      rw [hstep] at hres ⊢
      rw [ih (i + 1) _ hres]
      simp
      ring

theorem readLoop_succ_snd (o : ℕ → Option Regs) :
    ∀ (fuel i : ℕ) (h : Haldata),
      (readLoop o i fuel h).1 = 0 →
      ∃ d j, j < fuel ∧ o (i + j) = some d ∧ (∀ k < j, o (i + k) = none) ∧
        (readLoop o i fuel h).2 =
          applySnapshot d { h with modbus_errors := h.modbus_errors + (j : ℤ) } := by
  intro fuel
  induction fuel with
  | zero => intro i h hres; simp [readLoop] at hres
  | succ f ih =>
    intro i h hres
    cases ho : o i with
    | some d =>
      refine ⟨d, 0, Nat.succ_pos f, by simpa using ho, by omega, ?_⟩
      simp [readLoop, ho]
    | none =>
      have hstep : readLoop o i (f + 1) h =
          readLoop o (i + 1) f { h with modbus_errors := h.modbus_errors + 1 } := by
        simp [readLoop, ho]
      rw [hstep] at hres ⊢
      obtain ⟨d, j, hj, hsome, hnone, heq⟩ := ih (i + 1) _ hres
      refine ⟨d, j + 1, Nat.succ_lt_succ hj, ?_, ?_, ?_⟩
      · simpa [Nat.add_comm, Nat.add_left_comm, Nat.add_assoc] using hsome
      · intro k hk
        match k, hk with
        | 0, _ => simpa using ho
        | Nat.succ m, hm =>
          have := hnone m (Nat.lt_of_succ_lt_succ hm)
          simpa [Nat.add_comm, Nat.add_left_comm, Nat.add_assoc] using this
      · rw [heq]
        have harith : h.modbus_errors + 1 + (j : ℤ) = h.modbus_errors + ((j + 1 : ℕ) : ℤ) := by
          push_cast
          ring
        congr 1
        simp [Haldata.mk.injEq, harith]

theorem readLoop_preserved (o : ℕ → Option Regs) :
    ∀ (fuel i : ℕ) (h : Haldata),
      (readLoop o i fuel h).2.vfd_error = h.vfd_error ∧
      (readLoop o i fuel h).2.spindle_on = h.spindle_on ∧
      (readLoop o i fuel h).2.spindle_fwd = h.spindle_fwd ∧
      (readLoop o i fuel h).2.spindle_rev = h.spindle_rev ∧
      (readLoop o i fuel h).2.speed_cmd = h.speed_cmd ∧
      (readLoop o i fuel h).2.speed_tolerance = h.speed_tolerance := by
  intro fuel
  induction fuel with
  | zero => intro i h; simp [readLoop]
  | succ f ih =>
    intro i h
    cases ho : o i with
    | some d => simp [readLoop, ho, applySnapshot]
    | none =>
      rw [show readLoop o i (f + 1) h =
          readLoop o (i + 1) f { h with modbus_errors := h.modbus_errors + 1 } by
            simp [readLoop, ho]]
      simpa using ih (i + 1) { h with modbus_errors := h.modbus_errors + 1 }

theorem set_vfd_state_snd (w : ℕ → Bool) (h : Haldata) :
    (set_vfd_state w h).2 =
      { h with modbus_errors := h.modbus_errors +
          (stateFailCount w h.spindle_on h.spindle_fwd h.spindle_rev h.inverter_status : ℤ) } := by
  unfold set_vfd_state stateFailCount
  cases vfdStateTarget h.spindle_on h.spindle_fwd h.spindle_rev h.inverter_status with
  | none => simp
  | some t => simp [writeLoop_snd]

theorem set_vfd_freq_snd (w : ℕ → Bool) (h : Haldata) (freq_calc max_freq : ℚ) :
    (set_vfd_freq w h freq_calc max_freq).2 =
      { h with modbus_errors := h.modbus_errors +
          (freqFailCount w h.speed_cmd h.output_freq freq_calc max_freq : ℤ) } := by
  unfold set_vfd_freq freqFailCount
  by_cases hc : (freqRegister h.speed_cmd freq_calc max_freq : ℤ) = ratTrunc (h.output_freq * 100)
  · simp [hc]
  · simp [hc, writeLoop_snd]

/-- The function `write_data` as a single update of its input block: the
two bus writes touch only `modbus_errors`, and the four status pins are
pure functions of the input snapshot, command and tolerance. -/
theorem write_data_eq (ws wf : ℕ → Bool) (h : Haldata) (hzcalc max_freq : ℚ) :
    write_data ws wf h hzcalc max_freq =
      { h with
        modbus_errors := h.modbus_errors +
          (stateFailCount ws h.spindle_on h.spindle_fwd h.spindle_rev h.inverter_status : ℤ) +
          (freqFailCount wf h.speed_cmd h.output_freq hzcalc max_freq : ℤ)
        is_stopped := if h.output_freq = 0 then true else false
        speed_fb := h.output_freq / hzcalc
        at_speed := if h.spindle_on = false then false
                    else atSpeedCompare h.freq_cmd h.output_freq h.speed_tolerance
        vfd_error := if h.inverter_status &&& 24 ≠ 0 then true else h.vfd_error } := by
  unfold write_data
  rw [set_vfd_state_snd, set_vfd_freq_snd]

theorem tick_errors (ro : ℕ → Option Regs) (ws wf : ℕ → Bool) (h : Haldata)
    (hzcalc max_freq : ℚ) :
    (tick ro ws wf h hzcalc max_freq).modbus_errors =
      h.modbus_errors + (tickFailCount ro ws wf h hzcalc max_freq : ℤ) := by
  unfold tick tickFailCount
  rw [write_data_eq]
  have hread := readLoop_errors ro (NUM_MODBUS_RETRIES + 1) 0 (clampPeriod h)
  unfold read_data
  simp only [hread]
  simp [clampPeriod]
  ring

theorem tick_sticky (ro : ℕ → Option Regs) (ws wf : ℕ → Bool) (h : Haldata)
    (hzcalc max_freq : ℚ) (herr : h.vfd_error = true) :
    (tick ro ws wf h hzcalc max_freq).vfd_error = true := by
  unfold tick
  rw [write_data_eq]
  have hp := (readLoop_preserved ro (NUM_MODBUS_RETRIES + 1) 0 (clampPeriod h)).1
  have hclamp : (clampPeriod h).vfd_error = h.vfd_error := rfl
  show (if _ ≠ 0 then true else (read_data ro (clampPeriod h)).2.vfd_error) = true
  unfold read_data
  rw [hp, hclamp, herr]
  split <;> rfl

theorem tick_commands (ro : ℕ → Option Regs) (ws wf : ℕ → Bool) (h : Haldata)
    (hzcalc max_freq : ℚ) :
    (tick ro ws wf h hzcalc max_freq).spindle_on = h.spindle_on ∧
    (tick ro ws wf h hzcalc max_freq).spindle_fwd = h.spindle_fwd ∧
    (tick ro ws wf h hzcalc max_freq).spindle_rev = h.spindle_rev ∧
    (tick ro ws wf h hzcalc max_freq).speed_cmd = h.speed_cmd := by
  unfold tick
  rw [write_data_eq]
  have hp := readLoop_preserved ro (NUM_MODBUS_RETRIES + 1) 0 (clampPeriod h)
  unfold read_data
  exact ⟨hp.2.1, hp.2.2.1, hp.2.2.2.1, hp.2.2.2.2.1⟩

theorem tick_errors_ge (ro : ℕ → Option Regs) (ws wf : ℕ → Bool) (h : Haldata)
    (hzcalc max_freq : ℚ) :
    h.modbus_errors ≤ (tick ro ws wf h hzcalc max_freq).modbus_errors := by
  rw [tick_errors]
  omega

theorem ticksRun_errors_mono (hzcalc max_freq : ℚ) :
    ∀ (l : List Oracles) (h : Haldata),
      h.modbus_errors ≤ (ticksRun l h hzcalc max_freq).modbus_errors := by
  intro l
  induction l with
  | nil => intro h; simp [ticksRun]
  | cons o rest ih =>
    intro h
    have hstep : ticksRun (o :: rest) h hzcalc max_freq =
        ticksRun rest (tick o.1 o.2.1 o.2.2 h hzcalc max_freq) hzcalc max_freq := rfl
    rw [hstep]
    exact le_trans (tick_errors_ge o.1 o.2.1 o.2.2 h hzcalc max_freq)
      (ih (tick o.1 o.2.1 o.2.2 h hzcalc max_freq))

end Vfd

theorem ratTrunc_of_nonneg {q : ℚ} (hq : 0 ≤ q) : ratTrunc q = ⌊q⌋ :=
  if_pos hq

theorem ratTrunc_natAbs (q : ℚ) : ((ratTrunc q).natAbs : ℤ) = ⌊|q|⌋ := by
  rcases le_or_lt 0 q with hq | hq
  · rw [ratTrunc_of_nonneg hq, abs_of_nonneg hq]
    exact Int.natAbs_of_nonneg (Int.floor_nonneg.mpr hq)
  · have h1 : ratTrunc q = ⌈q⌉ := if_neg (not_le.mpr hq)
    rw [h1, abs_of_neg hq, Int.floor_neg]
    have h2 : ⌈q⌉ ≤ 0 := Int.ceil_le.mpr (by exact_mod_cast hq.le)
    omega

namespace Rev0

theorem writeLoopSndRev (w : ℕ → Bool) :
    ∀ (fuel i : ℕ) (h : Haldata),
      (writeLoop w i fuel h).2 =
        { h with modbus_errors := h.modbus_errors + (Vfd.writeFailCount w i fuel : ℤ) } := by
  intro fuel
  induction fuel with
  | zero => intro i h; simp [writeLoop, Vfd.writeFailCount]
  | succ f ih =>
    intro i h
    by_cases hw : w i
    · simp [writeLoop, Vfd.writeFailCount, hw]
    · rw [show writeLoop w i (f + 1) h =
          writeLoop w (i + 1) f { h with modbus_errors := h.modbus_errors + 1 } by
            simp [writeLoop, hw], ih]
      simp [Vfd.writeFailCount, hw]
      ring

theorem set_motor_snd (w : ℕ → Bool) (h : Haldata) :
    ∃ n : ℕ, (set_motor w h).2 = { h with modbus_errors := h.modbus_errors + (n : ℤ) } := by
  unfold set_motor
  cases setMotorTarget h.spindle_on h.spindle_fwd h.inverter_status with
  | none => exact ⟨0, by simp⟩
  | some t => exact ⟨Vfd.writeFailCount w 0 6, by simp [writeLoopSndRev]⟩

theorem set_motor_frequency_snd (w : ℕ → Bool) (h : Haldata) (freq : ℚ) :
    (set_motor_frequency w h freq).2 =
      { h with modbus_errors := h.modbus_errors + (Vfd.writeFailCount w 0 6 : ℤ) } := by
  unfold set_motor_frequency
  exact writeLoopSndRev w 6 0 h

/-- The command pins through one call of `write_data` of the earlier
revision: the three spindle pins are untouched, while `rpm_cmd` is
overwritten in place by its absolute value when negative. -/
theorem write_data_fields (ws wf : ℕ → Bool) (h : Haldata) :
    (write_data ws wf h).spindle_on = h.spindle_on ∧
    (write_data ws wf h).spindle_fwd = h.spindle_fwd ∧
    (write_data ws wf h).spindle_rev = h.spindle_rev ∧
    (write_data ws wf h).rpm_cmd = (if h.rpm_cmd < 0 then |h.rpm_cmd| else h.rpm_cmd) := by
  obtain ⟨n1, hn1⟩ := set_motor_snd ws h
  unfold write_data
  rw [hn1]
  by_cases hneg : h.rpm_cmd < 0 <;>
    simp [hneg, set_motor_frequency_snd] <;>
    split_ifs <;>
    simp [set_motor_frequency_snd]

end Rev0


/-- Claim C1: for every snapshot with `output_freq = 0` and every
command and configuration, `write_data` publishes `is_stopped = true`
and `at_speed = false` (the tolerance comparison at zero output
frequency is the guarded division case and yields false for every
tolerance); and `at_speed = false` whenever `spindle_on` is false,
regardless of the tolerance comparison. -/
theorem c1_zero_frequency_status (ws wf : ℕ → Bool) (h : Vfd.Haldata)
    (hzcalc max_freq : ℚ) :
    (h.output_freq = 0 →
      (Vfd.write_data ws wf h hzcalc max_freq).is_stopped = true ∧
      (Vfd.write_data ws wf h hzcalc max_freq).at_speed = false) ∧
    (h.spindle_on = false →
      (Vfd.write_data ws wf h hzcalc max_freq).at_speed = false) := by
  rw [Vfd.write_data_eq]
  refine ⟨fun h0 => ⟨by simp [h0], ?_⟩, fun hoff => by simp [hoff]⟩
  simp [h0, atSpeedCompare]

/-- Witness for C1 at the initial block (zero output frequency, spindle
off). -/
theorem c1_witness :
    (Vfd.write_data (fun _ => true) (fun _ => true) Vfd.sample (1 / 60) 400).is_stopped = true ∧
    (Vfd.write_data (fun _ => true) (fun _ => true) Vfd.sample (1 / 60) 400).at_speed = false :=
  ⟨((c1_zero_frequency_status (fun _ => true) (fun _ => true) Vfd.sample (1 / 60) 400).1 rfl).1,
   ((c1_zero_frequency_status (fun _ => true) (fun _ => true) Vfd.sample (1 / 60) 400).1 rfl).2⟩

/-- Counterexample to claim C2 as stated: with the spindle disabled and
observed status word 2 (run bit clear, direction bit set), the decision
chain of `set_vfd_state` issues no write, although the observed 2-bit
run/direction field (2) differs from the Command-derived target state
(STOPPED = 0): the stop rule compares only the run bit. -/
theorem c2_counterexample :
    Vfd.vfdStateTarget false false false 2 = none ∧
    Vfd.set_vfd_state (fun _ => false) { Vfd.sample with inverter_status := 2 } =
      (0, { Vfd.sample with inverter_status := 2 }) ∧
    specCommandTarget false false false = 0 ∧
    (2 : ℕ) &&& 3 ≠ 0 :=
  ⟨by decide, rfl, rfl, by decide⟩

/-- Claim C2 (amended): in the current revision a register write is
issued exactly when one of the three transition rules fires — enabled ∧
forward ∧ field ≠ 1, enabled ∧ reverse ∧ field ≠ 3, ¬enabled ∧
run-bit ≠ 0 — and skipped otherwise; when the spindle is disabled the
skip test compares only the run bit (bit 0), not the full 2-bit
run/direction field; and `set_vfd_state` runs the write retry loop
exactly when the chain fires.  In the earlier revision, `set_motor`
fires its reverse rule on `spindle_on ≠ spindle_fwd` instead of
enabled ∧ reverse — never reading `spindle_rev` — so with the spindle
enabled, forward not requested and field ≠ 3 it issues a reverse write
though none of the claimed rules fires; apart from that predicate its
rules and its write-exactly-when-a-rule-fires discipline are the same. -/
theorem c2_state_write_rules :
    (∀ (s_on s_fwd s_rev : Bool) (status : ℕ),
      Vfd.vfdStateTarget s_on s_fwd s_rev status = none ↔
        ¬(s_on = true ∧ s_fwd = true ∧ status &&& 3 ≠ 1) ∧
        ¬(s_on = true ∧ s_rev = true ∧ status &&& 3 ≠ 3) ∧
        ¬(s_on = false ∧ status &&& 1 ≠ 0)) ∧
    (∀ (s_fwd s_rev : Bool) (status : ℕ),
      Vfd.vfdStateTarget false s_fwd s_rev status = none ↔ status &&& 1 = 0) ∧
    (∀ (w : ℕ → Bool) (h : Vfd.Haldata),
      (Vfd.vfdStateTarget h.spindle_on h.spindle_fwd h.spindle_rev h.inverter_status = none →
        Vfd.set_vfd_state w h = (0, h)) ∧
      (Vfd.vfdStateTarget h.spindle_on h.spindle_fwd h.spindle_rev h.inverter_status ≠ none →
        Vfd.set_vfd_state w h = Vfd.writeLoop w 0 (Vfd.NUM_MODBUS_RETRIES + 1) h)) ∧
    (∀ (s_on s_fwd : Bool) (status : ℕ),
      Rev0.setMotorTarget s_on s_fwd status = none ↔
        ¬(s_on = true ∧ s_fwd = true ∧ status &&& 3 ≠ 1) ∧
        ¬(s_on ≠ s_fwd ∧ status &&& 3 ≠ 3) ∧
        ¬(s_on = false ∧ status &&& 1 ≠ 0)) ∧
    (∀ status : ℕ, status &&& 3 ≠ 3 → Rev0.setMotorTarget true false status = some 3) ∧
    (∀ (w : ℕ → Bool) (h : Rev0.Haldata),
      (Rev0.setMotorTarget h.spindle_on h.spindle_fwd h.inverter_status = none →
        Rev0.set_motor w h = (0, h)) ∧
      (Rev0.setMotorTarget h.spindle_on h.spindle_fwd h.inverter_status ≠ none →
        Rev0.set_motor w h = Rev0.writeLoop w 0 6 h)) := by
  refine ⟨?_, ?_, ?_, ?_, ?_, ?_⟩
  · intro s_on s_fwd s_rev status
    unfold Vfd.vfdStateTarget
    split_ifs with h1 h2 h3 <;> simp_all
  · intro s_fwd s_rev status
    unfold Vfd.vfdStateTarget
    split_ifs with h1 h2 h3 <;> simp_all
  · intro w h
    unfold Vfd.set_vfd_state
    cases hT : Vfd.vfdStateTarget h.spindle_on h.spindle_fwd h.spindle_rev h.inverter_status with
    | none => simp
    | some t => simp
  · intro s_on s_fwd status
    unfold Rev0.setMotorTarget
    split_ifs with h1 h2 h3 <;> simp_all
  · intro status hst
    simp [Rev0.setMotorTarget, hst]
  · intro w h
    unfold Rev0.set_motor
    cases hT : Rev0.setMotorTarget h.spindle_on h.spindle_fwd h.inverter_status with
    | none => simp
    | some t => simp

/-- Witness for C2 (amended): at the initial block no rule fires in
either revision, so no write is issued; and the earlier revision's
deviant reverse rule fires at spindle on, forward off, observed field
0. -/
theorem c2_witness :
    Vfd.set_vfd_state (fun _ => true) Vfd.sample = (0, Vfd.sample) ∧
    Rev0.set_motor (fun _ => true) Rev0.sample = (0, Rev0.sample) ∧
    Rev0.setMotorTarget true false 0 = some 3 :=
  ⟨(c2_state_write_rules.2.2.1 (fun _ => true) Vfd.sample).1 (by decide),
   (c2_state_write_rules.2.2.2.2.2 (fun _ => true) Rev0.sample).1 (by decide),
   c2_state_write_rules.2.2.2.2.1 0 (by decide)⟩

/-- Claim C6: the frequency write of `set_vfd_freq` is skipped — the
block is returned unchanged, no bus attempt made — exactly when the
computed register value (0.01 Hz resolution) equals the observed
`output_freq` truncated at the same resolution; otherwise the write
retry loop runs.  Repeated ticks with an unchanged command hence issue
no frequency write once the two agree. -/
theorem c6_freq_skip_iff (w : ℕ → Bool) (h : Vfd.Haldata) (freq_calc max_freq : ℚ) :
    ((Vfd.freqRegister h.speed_cmd freq_calc max_freq : ℤ) = ratTrunc (h.output_freq * 100) →
      Vfd.set_vfd_freq w h freq_calc max_freq = (0, h)) ∧
    ((Vfd.freqRegister h.speed_cmd freq_calc max_freq : ℤ) ≠ ratTrunc (h.output_freq * 100) →
      Vfd.set_vfd_freq w h freq_calc max_freq =
        Vfd.writeLoop w 0 (Vfd.NUM_MODBUS_RETRIES + 1) h) := by
  unfold Vfd.set_vfd_freq
  constructor
  · intro hc; simp [hc]
  · intro hc; simp [hc]

/-- Witness for C6 at the initial block: commanded and observed register
values are both 0, so the tick issues no frequency write. -/
theorem c6_witness :
    Vfd.set_vfd_freq (fun _ => false) Vfd.sample (1 / 60) 400 = (0, Vfd.sample) :=
  (c6_freq_skip_iff (fun _ => false) Vfd.sample (1 / 60) 400).1 (by
    show (Vfd.freqRegister (0 : ℚ) (1 / 60) 400 : ℤ) = ratTrunc ((0 : ℚ) * 100)
    norm_num [Vfd.freqRegister, ratTrunc])

/-- Claim C7: `vfd_error` becomes true on any tick whose post-read
status word has bit 3 or bit 4 set (mask 24 = 0b11000), and once true it
is never cleared by the loop — over any later sequence of ticks, with
any oracle outcomes — even if the status bits later clear. -/
theorem c7_error_sticky :
    (∀ (ro : ℕ → Option Regs) (ws wf : ℕ → Bool) (h : Vfd.Haldata) (hz mf : ℚ),
      ((Vfd.read_data ro (Vfd.clampPeriod h)).2.inverter_status &&& 24 ≠ 0 →
        (Vfd.tick ro ws wf h hz mf).vfd_error = true) ∧
      (h.vfd_error = true → (Vfd.tick ro ws wf h hz mf).vfd_error = true)) ∧
    (∀ (l : List Vfd.Oracles) (h : Vfd.Haldata) (hz mf : ℚ),
      h.vfd_error = true → (Vfd.ticksRun l h hz mf).vfd_error = true) := by
  constructor
  · intro ro ws wf h hz mf
    constructor
    · intro hmask
      unfold Vfd.tick
      rw [Vfd.write_data_eq]
      show (if _ ≠ 0 then true else _) = true
      rw [if_pos hmask]
    · exact Vfd.tick_sticky ro ws wf h hz mf
  · intro l
    induction l with
    | nil => intro h hz mf herr; simpa [Vfd.ticksRun] using herr
    | cons o rest ih =>
      intro h hz mf herr
      have hstep : Vfd.ticksRun (o :: rest) h hz mf =
          Vfd.ticksRun rest (Vfd.tick o.1 o.2.1 o.2.2 h hz mf) hz mf := rfl
      rw [hstep]
      exact ih _ hz mf (Vfd.tick_sticky o.1 o.2.1 o.2.2 h hz mf herr)

/-- Witness for C7: a tick whose read returns status word 8 (bit 3 set)
drives `vfd_error` true, and it stays true over a later all-failure
tick. -/
theorem c7_witness :
    (Vfd.tick (fun _ => some (fun j => if j = 0 then 8 else 0)) (fun _ => true) (fun _ => true)
      Vfd.sample (1 / 60) 400).vfd_error = true ∧
    (Vfd.ticksRun [((fun _ => none), (fun _ => false), (fun _ => false))]
      { Vfd.sample with vfd_error := true } (1 / 60) 400).vfd_error = true :=
  ⟨(c7_error_sticky.1 (fun _ => some (fun j => if j = 0 then 8 else 0)) (fun _ => true)
      (fun _ => true) Vfd.sample (1 / 60) 400).1 (by decide),
   c7_error_sticky.2 [((fun _ => none), (fun _ => false), (fun _ => false))]
      { Vfd.sample with vfd_error := true } (1 / 60) 400 rfl⟩

/-- Claim C9: with `spindle_on`, `spindle_fwd` and `spindle_rev` all
asserted and the observed 2-bit field different from RUNNING_FORWARD,
the forward branch is evaluated first in both revisions and the target
is RUNNING_FORWARD (1); the conflicting reverse request is ignored, and
the decision functions have no error outcome to raise. -/
theorem c9_forward_priority (status : ℕ) (hne : status &&& 3 ≠ 1) :
    Vfd.vfdStateTarget true true true status = some 1 ∧
    Rev0.setMotorTarget true true status = some 1 := by
  constructor
  · unfold Vfd.vfdStateTarget
    rw [if_pos ⟨rfl, rfl, hne⟩]
  · unfold Rev0.setMotorTarget
    rw [if_pos ⟨rfl, rfl, hne⟩]

/-- Witness for C9 at observed status 0. -/
theorem c9_witness :
    Vfd.vfdStateTarget true true true 0 = some 1 ∧
    Rev0.setMotorTarget true true 0 = some 1 :=
  c9_forward_priority 0 (by decide)

/-- Claim C10: on every tick the four status outputs are recomputed and
published from the post-read block — for every outcome of the read and
of the two register writes: the loop body invokes the write/status phase
unconditionally after the read, and the published values do not depend
on the write oracles at all, only on the (possibly stale) snapshot,
command and tolerance. -/
theorem c10_status_recomputed (ro : ℕ → Option Regs) (ws wf : ℕ → Bool)
    (h : Vfd.Haldata) (hz mf : ℚ) :
    (Vfd.tick ro ws wf h hz mf).is_stopped =
      (if (Vfd.read_data ro (Vfd.clampPeriod h)).2.output_freq = 0 then true else false) ∧
    (Vfd.tick ro ws wf h hz mf).speed_fb =
      (Vfd.read_data ro (Vfd.clampPeriod h)).2.output_freq / hz ∧
    (Vfd.tick ro ws wf h hz mf).at_speed =
      (if (Vfd.read_data ro (Vfd.clampPeriod h)).2.spindle_on = false then false
       else atSpeedCompare (Vfd.read_data ro (Vfd.clampPeriod h)).2.freq_cmd
         (Vfd.read_data ro (Vfd.clampPeriod h)).2.output_freq
         (Vfd.read_data ro (Vfd.clampPeriod h)).2.speed_tolerance) ∧
    (Vfd.tick ro ws wf h hz mf).vfd_error =
      (if (Vfd.read_data ro (Vfd.clampPeriod h)).2.inverter_status &&& 24 ≠ 0 then true
       else (Vfd.read_data ro (Vfd.clampPeriod h)).2.vfd_error) := by
  unfold Vfd.tick
  rw [Vfd.write_data_eq]
  exact ⟨rfl, rfl, rfl, rfl⟩

/-- Counterexample to claim C3 as stated: at `requested_speed = 40000`
RPM (scale 400/24000, `max_frequency = 400`), the C code truncates
`40000 * (400/24000) * 100 = 66666.6` to 66666 and stores it in the
`uint16_t` register variable — wrapping to 1130 — before the cap
comparison, which then no longer fires; the clamp formula of the claim
gives 40000 (400.00 Hz). -/
theorem c3_counterexample :
    (Vfd.freqRegister 40000 (400 / 24000) 400 : ℤ) ≠
      specFreqRegister 40000 (400 / 24000) 400 ∧
    Vfd.freqRegister 40000 (400 / 24000) 400 = 1130 ∧
    specFreqRegister 40000 (400 / 24000) 400 = 40000 := by
  have h1 : Vfd.freqRegister 40000 (400 / 24000) 400 = 1130 := by
    norm_num [Vfd.freqRegister, ratTrunc]
  have h2 : specFreqRegister 40000 (400 / 24000) 400 = 40000 := by
    norm_num [specFreqRegister, ratTrunc, min_def, max_def, abs_of_pos]
  refine ⟨?_, h1, h2⟩
  rw [h1, h2]
  norm_num

/-- Claim C3 (amended): whenever the truncated scaled value fits the
16-bit register (`|requested_speed| * scale * 100 < 65536`) and the cap
itself is representable (`max_freq * 100 < 65536`), the register value
computed by `set_vfd_freq` equals
`clamp(|requested_speed| * scale, 0, max_freq)`, multiplied by 100 and
rounded toward zero; outside that range the stored `uint16_t` wraps
modulo 65536 before the cap test. -/
theorem c3_freq_register_formula (speed_cmd freq_calc max_freq : ℚ)
    (hcalc : 0 < freq_calc) (hmax : 0 < max_freq)
    (hfit : |speed_cmd| * freq_calc * 100 < 65536)
    (hcap : max_freq * 100 < 65536) :
    (Vfd.freqRegister speed_cmd freq_calc max_freq : ℤ) =
      specFreqRegister speed_cmd freq_calc max_freq := by
  have habs : |speed_cmd * freq_calc * 100| = |speed_cmd| * freq_calc * 100 := by
    rw [abs_mul, abs_mul, abs_of_pos hcalc]
    norm_num
  have hfl0 : (0 : ℤ) ≤ ⌊|speed_cmd * freq_calc * 100|⌋ :=
    Int.floor_nonneg.mpr (abs_nonneg _)
  have hfl_lt : ⌊|speed_cmd * freq_calc * 100|⌋ < 65536 := by
    rw [Int.floor_lt, habs]
    exact_mod_cast hfit
  have hto : ((⌊|speed_cmd * freq_calc * 100|⌋.toNat : ℕ) : ℤ) =
      ⌊|speed_cmd * freq_calc * 100|⌋ := Int.toNat_of_nonneg hfl0
  have hA : (ratTrunc (speed_cmd * freq_calc * 100)).natAbs % 65536 =
      ⌊|speed_cmd * freq_calc * 100|⌋.toNat := by
    have hh := ratTrunc_natAbs (speed_cmd * freq_calc * 100)
    have heq : (ratTrunc (speed_cmd * freq_calc * 100)).natAbs =
        ⌊|speed_cmd * freq_calc * 100|⌋.toNat := by omega
    rw [heq]
    exact Nat.mod_eq_of_lt (by omega)
  have hcap0 : (0 : ℤ) ≤ ⌊max_freq * 100⌋ := Int.floor_nonneg.mpr (by positivity)
  have hcap_lt : ⌊max_freq * 100⌋ < 65536 := by
    rw [Int.floor_lt]
    exact_mod_cast hcap
  have hcapA : (ratTrunc (max_freq * 100)).toNat % 65536 = ⌊max_freq * 100⌋.toNat := by
    rw [ratTrunc_of_nonneg (by positivity)]
    exact Nat.mod_eq_of_lt (by omega)
  have hminnn : 0 ≤ min (|speed_cmd| * freq_calc) max_freq :=
    le_min (by positivity) hmax.le
  have hspec : specFreqRegister speed_cmd freq_calc max_freq =
      ⌊min (|speed_cmd| * freq_calc) max_freq * 100⌋ := by
    unfold specFreqRegister
    rw [max_eq_right hminnn, ratTrunc_of_nonneg (mul_nonneg hminnn (by norm_num))]
  rw [hspec]
  unfold Vfd.freqRegister
  simp only [hA, hcapA]
  split_ifs with hgt
  · have hQ : ((⌊|speed_cmd * freq_calc * 100|⌋.toNat : ℕ) : ℚ) =
        ((⌊|speed_cmd * freq_calc * 100|⌋ : ℤ) : ℚ) := by exact_mod_cast hto
    have hgt2 : max_freq * 100 < |speed_cmd * freq_calc * 100| := by
      calc max_freq * 100 < ((⌊|speed_cmd * freq_calc * 100|⌋.toNat : ℕ) : ℚ) := hgt
        _ = ((⌊|speed_cmd * freq_calc * 100|⌋ : ℤ) : ℚ) := hQ
        _ ≤ |speed_cmd * freq_calc * 100| := Int.floor_le _
    have hmle : max_freq ≤ |speed_cmd| * freq_calc := by
      rw [habs] at hgt2
      linarith
    rw [min_eq_right hmle]
    exact Int.toNat_of_nonneg hcap0
  · have hQ : ((⌊|speed_cmd * freq_calc * 100|⌋.toNat : ℕ) : ℚ) =
        ((⌊|speed_cmd * freq_calc * 100|⌋ : ℤ) : ℚ) := by exact_mod_cast hto
    have hle : ((⌊|speed_cmd * freq_calc * 100|⌋ : ℤ) : ℚ) ≤ max_freq * 100 := by
      rw [← hQ]
      exact not_lt.mp hgt
    rw [hto]
    by_cases hcase : |speed_cmd| * freq_calc ≤ max_freq
    · rw [min_eq_left hcase, ← habs]
    · push_neg at hcase
      rw [min_eq_right hcase.le]
      have h1 : ⌊|speed_cmd * freq_calc * 100|⌋ ≤ ⌊max_freq * 100⌋ := Int.le_floor.mpr hle
      have h2 : ⌊max_freq * 100⌋ ≤ ⌊|speed_cmd * freq_calc * 100|⌋ := by
        apply Int.floor_le_floor
        rw [habs]
        linarith
      omega

/-- Witness for C3 (amended) at the spec scenario: 12000 RPM with scale
400/24000 and max frequency 400 gives register value 20000 (200.00 Hz)
on both sides. -/
theorem c3_witness :
    (Vfd.freqRegister 12000 (400 / 24000) 400 : ℤ) = 20000 ∧
    specFreqRegister 12000 (400 / 24000) 400 = 20000 := by
  have hspec : specFreqRegister 12000 (400 / 24000) 400 = 20000 := by
    norm_num [specFreqRegister, ratTrunc, min_def, max_def, abs_of_pos]
  have happ := c3_freq_register_formula 12000 (400 / 24000) 400 (by norm_num) (by norm_num)
    (by rw [abs_of_pos (by norm_num : (0 : ℚ) < 12000)]; norm_num) (by norm_num)
  exact ⟨happ.trans hspec, hspec⟩

/-- Counterexample to claim C4 as stated: the `read_data` of the earlier
revision performs a single attempt — with an oracle whose first attempt
fails but whose second (within the claimed 5-retry budget) would
succeed, it reports failure after one error increment, while the current
revision's `read_data` succeeds on the same oracle. -/
theorem c4_counterexample :
    (Rev0.read_data oFailThenOk Rev0.sample).1 = -1 ∧
    (Rev0.read_data oFailThenOk Rev0.sample).2.modbus_errors =
      Rev0.sample.modbus_errors + 1 ∧
    oFailThenOk 1 ≠ none ∧
    (Vfd.read_data oFailThenOk Vfd.sample).1 = 0 := by
  refine ⟨rfl, rfl, ?_, rfl⟩
  simp [oFailThenOk]

/-- Claim C4 (amended): every register write — and, in the current
revision, the register read — retries up to `NUM_MODBUS_RETRIES = 5`
times beyond the first attempt, reporting failure exactly when all six
attempts fail; the earlier revision's read makes a single attempt.  In
all cases every failed attempt increments `modbus_errors` exactly once,
so the counter grows by exactly the tick's number of failed attempts and
is non-decreasing over any sequence of ticks. -/
theorem c4_retry_accounting :
    (∀ (o : ℕ → Option Regs) (h : Vfd.Haldata),
      (Vfd.read_data o h).2.modbus_errors =
        h.modbus_errors + (Vfd.readFailCount o 0 (Vfd.NUM_MODBUS_RETRIES + 1) : ℤ) ∧
      Vfd.readFailCount o 0 (Vfd.NUM_MODBUS_RETRIES + 1) ≤ Vfd.NUM_MODBUS_RETRIES + 1 ∧
      ((Vfd.read_data o h).1 = -1 ↔ ∀ j < Vfd.NUM_MODBUS_RETRIES + 1, o j = none)) ∧
    (∀ (w : ℕ → Bool) (h : Vfd.Haldata),
      (Vfd.writeLoop w 0 (Vfd.NUM_MODBUS_RETRIES + 1) h).2.modbus_errors =
        h.modbus_errors + (Vfd.writeFailCount w 0 (Vfd.NUM_MODBUS_RETRIES + 1) : ℤ) ∧
      Vfd.writeFailCount w 0 (Vfd.NUM_MODBUS_RETRIES + 1) ≤ Vfd.NUM_MODBUS_RETRIES + 1 ∧
      ((Vfd.writeLoop w 0 (Vfd.NUM_MODBUS_RETRIES + 1) h).1 = -1 ↔
        ∀ j < Vfd.NUM_MODBUS_RETRIES + 1, w j = false)) ∧
    (∀ (o : ℕ → Option Regs) (h : Rev0.Haldata),
      (o 0 = none → (Rev0.read_data o h).1 = -1 ∧
        (Rev0.read_data o h).2.modbus_errors = h.modbus_errors + 1) ∧
      (o 0 ≠ none → (Rev0.read_data o h).1 = 0 ∧
        (Rev0.read_data o h).2.modbus_errors = h.modbus_errors)) ∧
    (∀ (ro : ℕ → Option Regs) (ws wf : ℕ → Bool) (h : Vfd.Haldata) (hz mf : ℚ),
      (Vfd.tick ro ws wf h hz mf).modbus_errors =
        h.modbus_errors + (Vfd.tickFailCount ro ws wf h hz mf : ℤ)) ∧
    (∀ (l : List Vfd.Oracles) (h : Vfd.Haldata) (hz mf : ℚ),
      h.modbus_errors ≤ (Vfd.ticksRun l h hz mf).modbus_errors) := by
  refine ⟨?_, ?_, ?_, ?_, ?_⟩
  · intro o h
    refine ⟨?_, Vfd.readFailCount_le o (Vfd.NUM_MODBUS_RETRIES + 1) 0, ?_⟩
    · exact Vfd.readLoop_errors o (Vfd.NUM_MODBUS_RETRIES + 1) 0 h
    · have := Vfd.readLoop_fst o (Vfd.NUM_MODBUS_RETRIES + 1) 0 h
      simpa using this
  · intro w h
    refine ⟨?_, Vfd.writeFailCount_le w (Vfd.NUM_MODBUS_RETRIES + 1) 0, ?_⟩
    · rw [Vfd.writeLoop_snd]
    · have := Vfd.writeLoop_fst w (Vfd.NUM_MODBUS_RETRIES + 1) 0 h
      simpa using this
  · intro o h
    constructor
    · intro ho
      unfold Rev0.read_data
      rw [ho]
      exact ⟨rfl, rfl⟩
    · intro ho
      cases hv : o 0 with
      | none => exact absurd hv ho
      | some d =>
        unfold Rev0.read_data
        rw [hv]
        exact ⟨rfl, rfl⟩
  · intro ro ws wf h hz mf
    exact Vfd.tick_errors ro ws wf h hz mf
  · intro l h hz mf
    exact Vfd.ticksRun_errors_mono hz mf l h

/-- Witness for C4 (amended): with every attempt failing, the current
revision's read reports failure after consuming its six attempts. -/
theorem c4_witness :
    (Vfd.read_data (fun _ => none) Vfd.sample).1 = -1 :=
  (c4_retry_accounting.1 (fun _ => none) Vfd.sample).2.2.mpr (fun _ _ => rfl)

/-- Claim C5: when the read fails after exhausting its attempts, the
returned block keeps every snapshot pin unchanged — the whole block
differs from the input only in the error counter — and on success the
snapshot pins are exactly the decoding of the one register block
received by the first successful attempt. -/
theorem c5_snapshot_atomic (o : ℕ → Option Regs) (h : Vfd.Haldata) :
    ((Vfd.read_data o h).1 = -1 →
      Vfd.snapshot (Vfd.read_data o h).2 = Vfd.snapshot h ∧
      (Vfd.read_data o h).2 =
        { h with modbus_errors := h.modbus_errors + ((Vfd.NUM_MODBUS_RETRIES + 1 : ℕ) : ℤ) }) ∧
    ((Vfd.read_data o h).1 = 0 →
      ∃ d j, j < Vfd.NUM_MODBUS_RETRIES + 1 ∧ o j = some d ∧ (∀ k < j, o k = none) ∧
        Vfd.snapshot (Vfd.read_data o h).2 = Vfd.decodeSnapshot d) := by
  constructor
  · intro hres
    have hf := Vfd.readLoop_fail_snd o (Vfd.NUM_MODBUS_RETRIES + 1) 0 h hres
    unfold Vfd.read_data at hf ⊢
    rw [hf]
    exact ⟨rfl, rfl⟩
  · intro hres
    obtain ⟨d, j, hj, hsome, hnone, heq⟩ :=
      Vfd.readLoop_succ_snd o (Vfd.NUM_MODBUS_RETRIES + 1) 0 h hres
    refine ⟨d, j, hj, by simpa using hsome, fun k hk => by simpa using hnone k hk, ?_⟩
    unfold Vfd.read_data
    rw [heq]
    rfl

/-- Witness for C5: an all-failure read at the initial block returns an
error and the published snapshot is unchanged. -/
theorem c5_witness :
    Vfd.snapshot (Vfd.read_data (fun _ => none) Vfd.sample).2 = Vfd.snapshot Vfd.sample :=
  ((c5_snapshot_atomic (fun _ => none) Vfd.sample).1 rfl).1

/-- Counterexample to claim C8 as stated: `write_data` of the earlier
revision overwrites the Command pin `speed-command` in place — with
`rpm_cmd = -5000` on entry, the pin reads 5000 after the tick's
write/status phase. -/
theorem c8_counterexample :
    negCmdSample.rpm_cmd = -5000 ∧
    (Rev0.write_data (fun _ => true) (fun _ => true) negCmdSample).rpm_cmd = 5000 ∧
    (Rev0.write_data (fun _ => true) (fun _ => true) negCmdSample).rpm_cmd ≠
      negCmdSample.rpm_cmd := by
  have h4 := (Rev0.write_data_fields (fun _ => true) (fun _ => true) negCmdSample).2.2.2
  have hval : (Rev0.write_data (fun _ => true) (fun _ => true) negCmdSample).rpm_cmd = 5000 := by
    rw [h4, if_pos (by norm_num [negCmdSample, Rev0.sample] : negCmdSample.rpm_cmd < 0)]
    rw [show negCmdSample.rpm_cmd = -5000 from rfl, abs_of_neg (by norm_num)]
    norm_num
  refine ⟨rfl, hval, ?_⟩
  rw [hval, show negCmdSample.rpm_cmd = -5000 from rfl]
  norm_num

/-- Claim C8 (amended): in the current revision a tick never writes any
Command pin (spindle on/forward/reverse, requested speed), whatever the
oracle outcomes; in the earlier revision the three spindle pins are
likewise never written, and the requested speed is unchanged whenever it
is nonnegative (a negative one is replaced in place by its absolute
value). -/
theorem c8_command_frame :
    (∀ (ro : ℕ → Option Regs) (ws wf : ℕ → Bool) (h : Vfd.Haldata) (hz mf : ℚ),
      (Vfd.tick ro ws wf h hz mf).spindle_on = h.spindle_on ∧
      (Vfd.tick ro ws wf h hz mf).spindle_fwd = h.spindle_fwd ∧
      (Vfd.tick ro ws wf h hz mf).spindle_rev = h.spindle_rev ∧
      (Vfd.tick ro ws wf h hz mf).speed_cmd = h.speed_cmd) ∧
    (∀ (ws wf : ℕ → Bool) (h : Rev0.Haldata),
      (Rev0.write_data ws wf h).spindle_on = h.spindle_on ∧
      (Rev0.write_data ws wf h).spindle_fwd = h.spindle_fwd ∧
      (Rev0.write_data ws wf h).spindle_rev = h.spindle_rev ∧
      (0 ≤ h.rpm_cmd → (Rev0.write_data ws wf h).rpm_cmd = h.rpm_cmd)) := by
  constructor
  · intro ro ws wf h hz mf
    exact Vfd.tick_commands ro ws wf h hz mf
  · intro ws wf h
    obtain ⟨h1, h2, h3, h4⟩ := Rev0.write_data_fields ws wf h
    refine ⟨h1, h2, h3, fun hnn => ?_⟩
    rw [h4, if_neg (not_lt.mpr hnn)]

/-- Witness for C8 (amended): a tick of the current revision from the
initial block leaves all four Command pins unchanged, and the earlier
revision keeps a nonnegative requested speed. -/
theorem c8_witness :
    (Vfd.tick (fun _ => none) (fun _ => false) (fun _ => false)
      Vfd.sample (1 / 60) 400).speed_cmd = Vfd.sample.speed_cmd ∧
    (Rev0.write_data (fun _ => true) (fun _ => true) Rev0.sample).rpm_cmd =
      Rev0.sample.rpm_cmd :=
  ⟨(c8_command_frame.1 (fun _ => none) (fun _ => false) (fun _ => false)
      Vfd.sample (1 / 60) 400).2.2.2,
   (c8_command_frame.2 (fun _ => true) (fun _ => true) Rev0.sample).2.2.2 (by
      norm_num [Rev0.sample])⟩
